import Mathlib

/-!
Verification of the embedding-generation / vector-storage / similarity-search
pipeline of the Med-Project repository.

Shallow embedding notes:
* Python floats are modelled as real numbers (`ℝ`); `np.linalg.norm` is the
  L2 norm, `np.where(norms == 0, 1, norms)` is the guarded divisor.
* `model.encode` (SentenceTransformer) is an opaque per-text encoder
  `enc : String → List ℝ`; encoding a batch is `List.map enc` (each text's
  vector depends only on its own content, never on co-batched texts).
* `faiss.IndexFlatIP.search` is exact inner-product top-k search: results
  sorted by descending score, ties by ascending store position; when
  `k > ntotal` FAISS pads the remaining slots with label `-1` and
  distance `-FLT_MAX`.
* Fallible operations (`range` with step 0, `np.load` of a missing file,
  `astype(int)` of a non-numeric string, out-of-bounds fancy indexing)
  return `Except String`.
-/

/-- Embedding vectors: rows of the N×D float matrices, modelled over ℝ. -/
abbrev Vec := List ℝ

/-- One row of the `pubmed_articles` table as fetched by `emb_database.py`
(lines 34-42): `abstract` is non-null by the SQL filter, the other text
fields may be SQL NULL (`Option`). -/
structure ArticleRecord where
  pmid : String
  section_title : Option String
  article_title : Option String
  abstract : String
  mesh_terms : Option String

/-- Python `str(x)` as applied by an f-string to a possibly-`None` value:
`None` is rendered as the four-character text. -/
def pyStr : Option String → String
  | Option.none => "None"
  | Option.some s => s

/-- The record formatter of `emb_database.py` lines 52-57 (identical in
`npy_test.py` lines 59-64): an f-string interpolating the four fields in
fixed order. -/
def formatted (r : ArticleRecord) : String :=
  "Section Title: " ++ pyStr r.section_title ++
  ", Article Title: " ++ pyStr r.article_title ++
  ", Abstract: " ++ r.abstract ++
  ", MeSH Terms: " ++ pyStr r.mesh_terms

/-- The list of values produced by Python `range(start, stop, step)` for a
nonzero step (ascending case). -/
def rangeStep (start stop step : ℕ) : List ℕ :=
  if _h : 0 < step ∧ start < stop then start :: rangeStep (start + step) stop step
  else []
termination_by stop - start
decreasing_by
  simp_wf
  omega

/-- Message of the `ValueError` raised by Python `range` on a zero step. -/
def rangeErrMsg : String := "ValueError: range() arg 3 must not be zero"

/-- Python `range(start, stop, step)` over naturals: raises `ValueError`
when `step = 0`, otherwise yields the arithmetic progression. -/
def pyRange (start stop step : ℕ) : Except String (List ℕ) :=
  if step = 0 then Except.error rangeErrMsg
  else Except.ok (rangeStep start stop step)

/-- L2 norm of a row, `np.linalg.norm(v)`. -/
noncomputable def l2norm (v : Vec) : ℝ :=
  Real.sqrt ((v.map (fun x => x ^ 2)).sum)

/-- Row normalization of `emb_database.py` lines 106-107 (and identically
`search_index.py` lines 162-163): divide each entry by
`np.where(norm == 0, 1, norm)`. -/
noncomputable def normalizeRow (v : Vec) : Vec :=
  v.map (fun x => x / (if l2norm v = 0 then 1 else l2norm v))

/-- The text slices taken by the embedding loop of `emb_database.py`
lines 83-85: for each `start` in `range(0, to_embed, bs)` the slice
`all_texts[start : min(start + bs, to_embed)]`. -/
def genChunks (texts : List String) (to_embed bs : ℕ) : List (List String) :=
  (rangeStep 0 to_embed bs).map
    (fun start => (texts.drop start).take (min (start + bs) to_embed - start))

/-- The pair of arrays saved by a generation run:
`pmid_index.npy` and `abstracts.npy`. -/
structure GenResult where
  pmid_array : List String
  all_embeddings : List Vec

/-- The embedding-generation pipeline of `emb_database.py` lines 76-107:
`batch_size = min(10, to_embed)` (line 80), the chunked loop over
`range(0, to_embed, batch_size)` (lines 83-92, each chunk encoded text by
text), `np.vstack` of the batches (line 95), `pmid_array =
np.array(all_pmids[:to_embed])` (line 103), and the guarded row
normalization (lines 106-107). -/
noncomputable def generationRun (enc : String → Vec) (records : List ArticleRecord)
    (to_embed : ℕ) : Except String GenResult :=
  let all_texts := records.map formatted
  let all_pmids := records.map (fun r => r.pmid)
  let batch_size := min 10 to_embed
  match pyRange 0 to_embed batch_size with
  | Except.error e => Except.error e
  | Except.ok starts =>
    let embeddings_batches := starts.map
      (fun start => ((all_texts.drop start).take (min (start + batch_size) to_embed - start)).map enc)
    let all_embeddings := embeddings_batches.flatten
    let pmid_array := all_pmids.take to_embed
    Except.ok (GenResult.mk pmid_array (all_embeddings.map normalizeRow))

/-- The persisted identifier array `pmid_index.npy`: numpy stores either an
integer-dtype array or a string-dtype array (the generation script saves
the PMIDs as Python strings). -/
inductive StoredIds where
  | ints (l : List Int)
  | strs (l : List String)

/-- Number of identifiers in a persisted id array. -/
def StoredIds.length : StoredIds → ℕ
  | StoredIds.ints l => l.length
  | StoredIds.strs l => l.length

/-- The on-disk state of the vector store: the two files
`data/vectors/abstracts.npy` and `data/vectors/pmid_index.npy`
(`Option.none` = file absent). -/
structure SavedStore where
  abstracts : Option (List Vec)
  pmid_index : Option StoredIds

/-- The save step of `emb_database.py` lines 114-128: delete any existing
`abstracts.npy` and save the embedding matrix, then delete any existing
`pmid_index.npy` and save the id array.  There is no validation of any
kind; both files are unconditionally replaced. -/
def writeStore (_prior : SavedStore) (embs : List Vec) (ids : StoredIds) : SavedStore :=
  SavedStore.mk (Option.some embs) (Option.some ids)

/-- Message of the error raised by `np.load` on a missing file. -/
def loadErrMsg : String := "FileNotFoundError"

/-- Loading the persisted pair with `np.load` (as in `search_index.py`
lines 161 and 171): fails if either file is absent. -/
def loadStore (d : SavedStore) : Except String (List Vec × StoredIds) :=
  match d.abstracts, d.pmid_index with
  | Option.some e, Option.some p => Except.ok (e, p)
  | _, _ => Except.error loadErrMsg

/-- Message of the `ValueError` raised by `astype(int)` on a non-numeric
string. -/
def castErrMsg : String := "ValueError: invalid literal for int()"

/-- One decimal digit of a Python int literal. -/
def pyDigit (c : Char) : Option ℕ :=
  if Char.ofNat 48 ≤ c ∧ c ≤ Char.ofNat 57 then
    Option.some (c.toNat - 48)
  else Option.none

/-- Accumulator loop of decimal parsing. -/
def pyDigitsAux : List Char → ℕ → Option ℕ
  | [], acc => Option.some acc
  | c :: cs, acc =>
    match pyDigit c with
    | Option.some d => pyDigitsAux cs (10 * acc + d)
    | Option.none => Option.none

/-- Python `int(s)` on one array element during `astype(int)`: parses an
optionally-negated decimal literal, raising `ValueError` on anything
else. -/
def pyParseInt (s : String) : Except String Int :=
  match s.data with
  | [] => Except.error castErrMsg
  | c :: cs =>
    if c = Char.ofNat 45 then
      match cs, pyDigitsAux cs 0 with
      | _ :: _, Option.some n => Except.ok (-(n : Int))
      | _, _ => Except.error castErrMsg
    else
      match pyDigitsAux (c :: cs) 0 with
      | Option.some n => Except.ok ((n : ℕ) : Int)
      | Option.none => Except.error castErrMsg

/-- The dtype cast of `search_index.py` lines 172-173: if the loaded id
array is not of integer dtype, `pmids.astype(int)` parses every element. -/
def castIds : StoredIds → Except String (List Int)
  | StoredIds.ints l => Except.ok l
  | StoredIds.strs l => l.mapM pyParseInt

/-- Inner product of two rows (FAISS `IndexFlatIP` similarity). -/
def dot (a b : Vec) : ℝ := (List.zipWith (fun x y => x * y) a b).sum

/-- The inner-product score of the query against every stored row, in
store order. -/
def ipScores (embs : List Vec) (q : Vec) : List ℝ :=
  embs.map (fun row => dot q row)

/-- Result ordering of exact inner-product search: `a` precedes `b` when
`a` scores strictly higher, or they tie and `a` appears first in the
store. -/
def rankLE (a b : ℕ × ℝ) : Prop :=
  b.2 < a.2 ∨ (b.2 = a.2 ∧ a.1 ≤ b.1)

noncomputable instance rankLEDec : DecidableRel rankLE := fun a b => by
  unfold rankLE
  infer_instance

instance rankLETotal : IsTotal (ℕ × ℝ) rankLE :=
  ⟨by
    intro a b
    rcases lt_trichotomy a.2 b.2 with h | h | h
    · exact Or.inr (Or.inl h)
    · rcases Nat.le_total a.1 b.1 with hn | hn
      · exact Or.inl (Or.inr ⟨h.symm, hn⟩)
      · exact Or.inr (Or.inr ⟨h, hn⟩)
    · exact Or.inl (Or.inl h)⟩

instance rankLETrans : IsTrans (ℕ × ℝ) rankLE :=
  ⟨by
    intro a b c hab hbc
    rcases hab with hab | ⟨hab, hab'⟩ <;> rcases hbc with hbc | ⟨hbc, hbc'⟩
    · exact Or.inl (hbc.trans hab)
    · exact Or.inl (hbc ▸ hab)
    · exact Or.inl (hab ▸ hbc)
    · exact Or.inr ⟨hbc.trans hab, hab'.trans hbc'⟩⟩

/-- The ranked result sequence of exact inner-product search over the
whole store: all (position, score) pairs sorted by descending score, ties
by first appearance. -/
noncomputable def rankedList (embs : List Vec) (q : Vec) : List (ℕ × ℝ) :=
  List.insertionSort rankLE ((ipScores embs q).enum)

/-- Sentinel distance FAISS reports for result slots beyond the number of
stored vectors: `-FLT_MAX`. -/
def faissPadScore : ℝ := -(2 ^ 128 - 2 ^ 104)

/-- `faiss.IndexFlatIP.search(q, k)` (`search_index.py` lines 166-183):
the `k` best (label, score) pairs; when `k` exceeds the number of stored
vectors the remaining slots are padded with label `-1` and score
`-FLT_MAX`. -/
noncomputable def faissSearch (embs : List Vec) (q : Vec) (k : ℕ) : List (Int × ℝ) :=
  ((rankedList embs q).take k).map (fun p => ((p.1 : Int), p.2)) ++
    List.replicate (k - embs.length) ((-1 : Int), faissPadScore)

/-- Message of the numpy `IndexError` on an out-of-range fancy index. -/
def idxErrMsg : String := "IndexError: index out of bounds"

/-- One element of numpy fancy indexing `arr[i]` with a (possibly
negative) integer index: negative indices count from the end; an index
outside `[-len, len)` raises `IndexError`. -/
def npIndex (arr : List Int) (i : Int) : Except String Int :=
  if i < -(arr.length : Int) ∨ (arr.length : Int) ≤ i then Except.error idxErrMsg
  else if i < 0 then Except.ok (arr.getD (i + arr.length).toNat 0)
  else Except.ok (arr.getD i.toNat 0)

/-- Python whitespace as recognized by `str.strip()`: space, tab, LF,
VT, FF, CR. -/
def pyWhitespace (c : Char) : Bool :=
  c = Char.ofNat 32 ∨ c = Char.ofNat 9 ∨ c = Char.ofNat 10 ∨
  c = Char.ofNat 11 ∨ c = Char.ofNat 12 ∨ c = Char.ofNat 13

/-- Python `s.strip()` (`search_index.py` line 158): remove leading and
trailing whitespace. -/
def pyStrip (s : String) : String :=
  String.mk (((s.data.dropWhile pyWhitespace).reverse.dropWhile pyWhitespace).reverse)

/-- Normalization of the query vector, `search_index.py` line 178:
`q_vec / np.linalg.norm(q_vec)` — unlike the row normalization this
division is not guarded against a zero norm. -/
noncomputable def normalizeQuery (q : Vec) : Vec :=
  q.map (fun x => x / l2norm q)

/-- `search_pmids_from_npy` of `search_index.py` lines 151-188: strip the
raw query, load `abstracts.npy` and re-normalize its rows, load
`pmid_index.npy` and cast it to integer dtype, encode and normalize the
query, run FAISS top-k search, and map the result positions back to PMIDs
by numpy fancy indexing.  Returns the PMID list and the score list. -/
noncomputable def search_pmids_from_npy (enc : String → Vec) (disk : SavedStore)
    (rawQuery : String) (top_k : ℕ) : Except String (List Int × List ℝ) :=
  let query := pyStrip rawQuery
  match disk.abstracts with
  | Option.none => Except.error loadErrMsg
  | Option.some raw_embs =>
    let embeddings := raw_embs.map normalizeRow
    match disk.pmid_index with
    | Option.none => Except.error loadErrMsg
    | Option.some sids =>
      match castIds sids with
      | Except.error e => Except.error e
      | Except.ok pmids =>
        let q_vec := enc query
        let qn := normalizeQuery q_vec
        let results := faissSearch embeddings qn top_k
        match (results.map (fun p => p.1)).mapM (npIndex pmids) with
        | Except.error e => Except.error e
        | Except.ok top_pmids => Except.ok (top_pmids, results.map (fun p => p.2))

/-! ## Helper lemmas -/

theorem rangeStep_pos {start stop step : ℕ} (hs : 0 < step) (h : start < stop) :
    rangeStep start stop step = start :: rangeStep (start + step) stop step := by
  rw [rangeStep]
  exact dif_pos ⟨hs, h⟩

theorem rangeStep_stop {start stop step : ℕ} (h : ¬ start < stop) :
    rangeStep start stop step = [] := by
  rw [rangeStep]
  rw [dif_neg (by omega)]

theorem rangeStep_mem {start stop step s : ℕ} (hmem : s ∈ rangeStep start stop step) :
    start ≤ s ∧ s < stop := by
  by_cases h : 0 < step ∧ start < stop
  · rw [rangeStep_pos h.1 h.2] at hmem
    rcases List.mem_cons.mp hmem with rfl | hmem
    · exact ⟨Nat.le_refl s, h.2⟩
    · have := rangeStep_mem hmem
      omega
  · rw [rangeStep] at hmem
    rw [dif_neg h] at hmem
    simp at hmem
termination_by stop - start
decreasing_by
  simp_wf
  omega

/-- The slices taken by the chunked loop, concatenated, are exactly the
first `n` texts in order (general accumulator version over `start`). -/
theorem chunks_flatten_from (texts : List String) (n bs : ℕ) (hbs : 0 < bs) (start : ℕ) :
    ((rangeStep start n bs).map
      (fun s => (texts.drop s).take (min (s + bs) n - s))).flatten
      = (texts.take n).drop start := by
  by_cases h : start < n
  · rw [rangeStep_pos hbs h, List.map_cons, List.flatten_cons,
      chunks_flatten_from texts n bs hbs (start + bs)]
    rcases Nat.le_total (start + bs) n with hle | hle
    · have hmin : min (start + bs) n - start = bs := by omega
      rw [hmin, List.drop_take, List.drop_take,
        show n - start = bs + (n - (start + bs)) by omega,
        List.take_add]
      congr 1
      rw [List.drop_drop]
    · have hmin : min (start + bs) n - start = n - start := by omega
      have h0 : n - (start + bs) = 0 := by omega
      rw [hmin, List.drop_take, h0, List.take_zero, List.append_nil, List.drop_take]
  · rw [rangeStep_stop h]
    have hnil : (texts.take n).drop start = [] := by
      apply List.drop_eq_nil_of_le
      have := List.length_take n texts
      omega
    rw [hnil]
    rfl
termination_by n - start
decreasing_by
  simp_wf
  omega

theorem chunks_flatten (texts : List String) (n bs : ℕ) (hbs : 0 < bs) :
    ((rangeStep 0 n bs).map
      (fun s => (texts.drop s).take (min (s + bs) n - s))).flatten = texts.take n := by
  rw [chunks_flatten_from texts n bs hbs 0, List.drop_zero]

/-- `mapM` over `Except` succeeds elementwise. -/
theorem mapM_ok {α β : Type} (f : α → Except String β) (g : α → β) (l : List α)
    (h : ∀ a ∈ l, f a = Except.ok (g a)) : l.mapM f = Except.ok (l.map g) := by
  induction l with
  | nil => rfl
  | cons a t ih =>
    rw [List.mapM_cons, h a (List.mem_cons_self a t), ih (fun x hx => h x (List.mem_cons_of_mem a hx))]
    rfl

theorem range_map_getD {α : Type} (l : List α) (d : α) :
    (List.range l.length).map (fun i => l.getD i d) = l := by
  induction l with
  | nil => simp
  | cons a t ih =>
    rw [List.length_cons, List.range_succ_eq_map, List.map_cons, List.map_map]
    simp only [List.getD_cons_zero, Function.comp_def, List.getD_cons_succ]
    rw [ih]

/-- The combined embedding of the generation run in closed form: for
`1 ≤ to_embed`, the run succeeds and produces exactly the first
`to_embed` pmids and, row-aligned, the normalized encodings of the first
`to_embed` canonical texts. -/
theorem generationRun_ok (enc : String → Vec) (records : List ArticleRecord)
    (to_embed : ℕ) (h1 : 1 ≤ to_embed) :
    generationRun enc records to_embed =
      Except.ok (GenResult.mk ((records.map (fun r => r.pmid)).take to_embed)
        (((records.map formatted).take to_embed).map (fun t => normalizeRow (enc t)))) := by
  have hbs0 : ¬ (min 10 to_embed = 0) := by omega
  have hbs : 0 < min 10 to_embed := by omega
  have key : ((rangeStep 0 to_embed (min 10 to_embed)).map
      (fun start => (((records.map formatted).drop start).take
        (min (start + min 10 to_embed) to_embed - start)).map enc)).flatten
      = ((records.map formatted).take to_embed).map enc := by
    have hm : (rangeStep 0 to_embed (min 10 to_embed)).map
        (fun start => (((records.map formatted).drop start).take
          (min (start + min 10 to_embed) to_embed - start)).map enc)
        = ((rangeStep 0 to_embed (min 10 to_embed)).map
          (fun start => ((records.map formatted).drop start).take
            (min (start + min 10 to_embed) to_embed - start))).map (List.map enc) := by
      rw [List.map_map]
      rfl
    rw [hm, ← List.map_flatten, chunks_flatten (records.map formatted) to_embed _ hbs]
  simp only [generationRun, pyRange, if_neg hbs0, key, List.map_map]
  rfl

/-- C3: after a generation run embedding the first `to_embed` records
(`1 ≤ to_embed ≤ #records`), the saved id and vector arrays have equal
length, `ids[i]` is the pmid of the record whose canonical text produced
`vectors[i]`, and the chunked batching embeds each of the first
`to_embed` texts exactly once, in order. -/
theorem c3_id_vector_alignment (enc : String → Vec) (records : List ArticleRecord)
    (to_embed : ℕ) (h1 : 1 ≤ to_embed) (h2 : to_embed ≤ records.length) :
    ∃ res : GenResult, generationRun enc records to_embed = Except.ok res ∧
      res.pmid_array.length = res.all_embeddings.length ∧
      res.pmid_array = (records.map (fun r => r.pmid)).take to_embed ∧
      res.all_embeddings = ((records.map formatted).take to_embed).map
        (fun t => normalizeRow (enc t)) ∧
      ∀ i < to_embed, res.pmid_array[i]? = (records[i]?).map (fun r => r.pmid) ∧
        res.all_embeddings[i]?
          = (records[i]?).map (fun r => normalizeRow (enc (formatted r))) := by
  refine ⟨_, generationRun_ok enc records to_embed h1, ?_, rfl, rfl, ?_⟩
  · simp [h2]
  · intro i hi
    constructor
    · simp [List.getElem?_take_of_lt hi, List.getElem?_map]
    · simp [List.getElem?_take_of_lt hi, List.getElem?_map, Option.map_map, Function.comp_def]

/-- Witness for C3 at a concrete input: one record, `to_embed = 1`. -/
theorem c3_id_vector_alignment_witness :
    (1 ≤ 1 ∧ 1 ≤ [ArticleRecord.mk ("9") Option.none Option.none ("A") Option.none].length) ∧
    ∃ res : GenResult,
      generationRun (fun _ => ([1] : Vec))
        [ArticleRecord.mk ("9") Option.none Option.none ("A") Option.none] 1 = Except.ok res ∧
      res.pmid_array.length = res.all_embeddings.length ∧
      res.pmid_array = ([ArticleRecord.mk ("9") Option.none Option.none ("A") Option.none].map
        (fun r => r.pmid)).take 1 ∧
      res.all_embeddings = (([ArticleRecord.mk ("9") Option.none Option.none ("A") Option.none].map
        formatted).take 1).map (fun t => normalizeRow ((fun _ => ([1] : Vec)) t)) ∧
      ∀ i < 1, res.pmid_array[i]?
          = ([ArticleRecord.mk ("9") Option.none Option.none ("A") Option.none][i]?).map
            (fun r => r.pmid) ∧
        res.all_embeddings[i]?
          = ([ArticleRecord.mk ("9") Option.none Option.none ("A") Option.none][i]?).map
            (fun r => normalizeRow ((fun _ => ([1] : Vec)) (formatted r))) :=
  ⟨⟨by decide, by decide⟩,
    c3_id_vector_alignment (fun _ => ([1] : Vec))
      [ArticleRecord.mk ("9") Option.none Option.none ("A") Option.none] 1
      (by decide) (by decide)⟩

/-- C4: the record formatter does not substitute the empty string for an
absent field — a record whose section title is SQL NULL is formatted with
the literal text `None` injected into the canonical string.  Evaluation
of the code at the failing input. -/
theorem c4_missing_field_rendered_as_none :
    formatted (ArticleRecord.mk ("1") Option.none (Option.some ("T")) ("A") (Option.some ("M")))
      = "Section Title: None, Article Title: T, Abstract: A, MeSH Terms: M" := by
  rfl

/-! ## Normalization (C5) -/

theorem sum_sq_nonneg (v : Vec) : 0 ≤ (v.map (fun x => x ^ 2)).sum := by
  apply List.sum_nonneg
  intro x hx
  rcases List.mem_map.mp hx with ⟨y, _, rfl⟩
  exact sq_nonneg y

theorem sum_sq_eq_zero_iff (v : Vec) :
    (v.map (fun x => x ^ 2)).sum = 0 ↔ ∀ x ∈ v, x = 0 := by
  induction v with
  | nil => simp
  | cons a t ih =>
    simp only [List.map_cons, List.sum_cons, List.mem_cons]
    rw [add_eq_zero_iff_of_nonneg (sq_nonneg a) (sum_sq_nonneg t), sq_eq_zero_iff, ih]
    constructor
    · rintro ⟨rfl, ht⟩ x hx
      rcases hx with rfl | hx
      · rfl
      · exact ht x hx
    · intro h
      exact ⟨h a (Or.inl rfl), fun x hx => h x (Or.inr hx)⟩

theorem l2norm_nonneg (v : Vec) : 0 ≤ l2norm v := Real.sqrt_nonneg _

theorem l2norm_eq_zero_iff (v : Vec) : l2norm v = 0 ↔ ∀ x ∈ v, x = 0 := by
  unfold l2norm
  rw [Real.sqrt_eq_zero', ← sum_sq_eq_zero_iff v]
  constructor
  · intro h
    exact le_antisymm h (sum_sq_nonneg v)
  · intro h
    exact le_of_eq h

theorem l2norm_normalizeRow (v : Vec) (h : l2norm v ≠ 0) :
    l2norm (normalizeRow v) = 1 := by
  have hpos : 0 < l2norm v := lt_of_le_of_ne (l2norm_nonneg v) (Ne.symm h)
  have hrow : normalizeRow v = v.map (fun x => x / l2norm v) := by
    unfold normalizeRow
    rw [if_neg h]
  have hsq : ((fun x => x ^ 2) ∘ fun x => x / l2norm v)
      = fun x => x ^ 2 * ((l2norm v) ^ 2)⁻¹ := by
    funext x
    simp only [Function.comp_apply, div_eq_mul_inv]
    ring
  rw [hrow]
  show Real.sqrt (((v.map (fun x => x / l2norm v)).map (fun x => x ^ 2)).sum) = 1
  rw [List.map_map, hsq, List.sum_map_mul_right, Real.sqrt_mul (sum_sq_nonneg v),
    Real.sqrt_inv, Real.sqrt_sq hpos.le]
  show l2norm v * (l2norm v)⁻¹ = 1
  exact mul_inv_cancel₀ h

/-- C5: the guarded row normalization maps every row with nonzero L2 norm
to a vector of unit L2 norm (hence within `1e-6` of 1), leaves every row
that is exactly the zero vector unchanged, and its divisor
`np.where(norm == 0, 1, norm)` is never zero (no NaN/Inf is produced). -/
theorem c5_row_normalization (v : Vec) :
    (l2norm v ≠ 0 →
      l2norm (normalizeRow v) = 1 ∧ |l2norm (normalizeRow v) - 1| < 1 / 1000000) ∧
    ((∀ x ∈ v, x = 0) → normalizeRow v = v) ∧
    ((if l2norm v = 0 then (1 : ℝ) else l2norm v) ≠ 0) := by
  refine ⟨?_, ?_, ?_⟩
  · intro h
    have h1 := l2norm_normalizeRow v h
    refine ⟨h1, ?_⟩
    rw [h1]
    norm_num
  · intro h
    have h0 : l2norm v = 0 := (l2norm_eq_zero_iff v).mpr h
    unfold normalizeRow
    rw [if_pos h0]
    simp
  · by_cases h0 : l2norm v = 0
    · rw [if_pos h0]
      norm_num
    · rw [if_neg h0]
      exact h0

theorem l2norm_three_four : l2norm [(3 : ℝ), 4] = 5 := by
  unfold l2norm
  simp only [List.map_cons, List.map_nil, List.sum_cons, List.sum_nil]
  rw [show (3 : ℝ) ^ 2 + ((4 : ℝ) ^ 2 + 0) = 5 ^ 2 by norm_num]
  exact Real.sqrt_sq (by norm_num)

/-- Witness for C5 at the concrete row `[3, 4]` (norm 5). -/
theorem c5_row_normalization_witness :
    l2norm [(3 : ℝ), 4] ≠ 0 ∧
      (l2norm (normalizeRow [(3 : ℝ), 4]) = 1 ∧
        |l2norm (normalizeRow [(3 : ℝ), 4]) - 1| < 1 / 1000000) := by
  have h : l2norm [(3 : ℝ), 4] ≠ 0 := by
    rw [l2norm_three_four]
    norm_num
  exact ⟨h, (c5_row_normalization [(3 : ℝ), 4]).1 h⟩

/-! ## Search machinery -/

theorem npIndex_nat (li : List Int) (i : ℕ) (h : i < li.length) :
    npIndex li (i : Int) = Except.ok (li.getD i 0) := by
  unfold npIndex
  rw [if_neg (by push_neg; omega), if_neg (by omega), Int.toNat_natCast]

theorem npIndex_neg_one (li : List Int) (h : 0 < li.length) :
    npIndex li (-1) = Except.ok (li.getD (li.length - 1) 0) := by
  unfold npIndex
  rw [if_neg (by push_neg; omega), if_pos (by omega)]
  have harg : ((-1 : Int) + (li.length : Int)).toNat = li.length - 1 := by omega
  rw [harg]

theorem rankedList_sorted (embs : List Vec) (q : Vec) :
    List.Sorted rankLE (rankedList embs q) :=
  List.sorted_insertionSort rankLE _

theorem rankedList_perm (embs : List Vec) (q : Vec) :
    (rankedList embs q).Perm ((ipScores embs q).enum) :=
  List.perm_insertionSort rankLE _

theorem rankedList_length (embs : List Vec) (q : Vec) :
    (rankedList embs q).length = embs.length := by
  rw [(rankedList_perm embs q).length_eq, List.enum_length]
  simp [ipScores]

theorem rankedList_mem {embs : List Vec} {q : Vec} {p : ℕ × ℝ}
    (hp : p ∈ rankedList embs q) :
    p.1 < embs.length ∧ p.2 = dot q (embs.getD p.1 []) := by
  rw [(rankedList_perm embs q).mem_iff, List.mem_enum_iff_getElem?, ipScores,
    List.getElem?_map] at hp
  rcases Option.map_eq_some'.mp hp with ⟨row, hrow, hval⟩
  rcases List.getElem?_eq_some.mp hrow with ⟨hlt, hget⟩
  refine ⟨hlt, ?_⟩
  rw [List.getD_eq_getElem embs [] hlt, hget, hval]

theorem rankedList_mem_of_lt (embs : List Vec) (q : Vec) (j : ℕ) (hj : j < embs.length) :
    (j, dot q (embs.getD j [])) ∈ rankedList embs q := by
  rw [(rankedList_perm embs q).mem_iff, List.mem_enum_iff_getElem?, ipScores,
    List.getElem?_map]
  have hsome : embs[j]? = some embs[j] := List.getElem?_eq_some.mpr ⟨hj, rfl⟩
  rw [hsome, List.getD_eq_getElem embs [] hj]
  rfl

/-- Closed form of `search_pmids_from_npy` whenever both files are
present, the dtype cast succeeds, the id array matches the store size,
and the store is non-empty: the search never fails, and the returned
lists are the ranked prefix followed by the FAISS padding (mapped through
numpy fancy indexing, where index `-1` resolves to the last id). -/
theorem search_ok (enc : String → Vec) (embs : List Vec) (sids : StoredIds) (li : List Int)
    (raw : String) (k : ℕ) (hcast : castIds sids = Except.ok li)
    (hlen : li.length = embs.length) (hN : 0 < embs.length) :
    search_pmids_from_npy enc (SavedStore.mk (Option.some embs) (Option.some sids)) raw k
      = Except.ok
        ((((rankedList (embs.map normalizeRow) (normalizeQuery (enc (pyStrip raw)))).take k).map
            (fun p => li.getD p.1 0))
          ++ List.replicate (k - embs.length) (li.getD (li.length - 1) 0),
        (((rankedList (embs.map normalizeRow) (normalizeQuery (enc (pyStrip raw)))).take k).map
            (fun p => p.2))
          ++ List.replicate (k - embs.length) faissPadScore) := by
  have hNli : 0 < li.length := by omega
  set embsN := embs.map normalizeRow with hembsN
  set qn := normalizeQuery (enc (pyStrip raw)) with hqn
  set ranked := rankedList embsN qn with hranked
  have hNlen : embsN.length = embs.length := by simp [hembsN]
  have hfst : (faissSearch embsN qn k).map (fun p => p.1)
      = (ranked.take k).map (fun p => ((p.1 : ℕ) : Int))
        ++ List.replicate (k - embs.length) (-1 : Int) := by
    rw [faissSearch, List.map_append, List.map_map, List.map_replicate, hNlen]
    rfl
  have hsnd : (faissSearch embsN qn k).map (fun p => p.2)
      = (ranked.take k).map (fun p => p.2)
        ++ List.replicate (k - embs.length) faissPadScore := by
    rw [faissSearch, List.map_append, List.map_map, List.map_replicate, hNlen]
    rfl
  have hmapM : ((faissSearch embsN qn k).map (fun p => p.1)).mapM (npIndex li)
      = Except.ok ((ranked.take k).map (fun p => li.getD p.1 0)
          ++ List.replicate (k - embs.length) (li.getD (li.length - 1) 0)) := by
    have hfor : ∀ a ∈ (ranked.take k).map (fun p => ((p.1 : ℕ) : Int))
        ++ List.replicate (k - embs.length) (-1 : Int),
        npIndex li a = Except.ok ((fun i : Int =>
          if i < 0 then li.getD (li.length - 1) 0 else li.getD i.toNat 0) a) := by
      intro a ha
      rcases List.mem_append.mp ha with ha | ha
      · rcases List.mem_map.mp ha with ⟨p, hp, rfl⟩
        have hplt : p.1 < li.length := by
          have := (rankedList_mem (List.mem_of_mem_take hp)).1
          omega
        have hneg : ¬ ((p.1 : Int) < 0) := by omega
        rw [npIndex_nat li p.1 hplt]
        simp only [if_neg hneg, Int.toNat_natCast]
      · rw [List.eq_of_mem_replicate ha, npIndex_neg_one li hNli]
        rfl
    have hgoal1 : ((ranked.take k).map (fun p => ((p.1 : ℕ) : Int))).map
        (fun i : Int => if i < 0 then li.getD (li.length - 1) 0 else li.getD i.toNat 0)
        = (ranked.take k).map (fun p => li.getD p.1 0) := by
      rw [List.map_map]
      apply List.map_eq_map_iff.mpr
      intro p _
      have hneg : ¬ ((p.1 : Int) < 0) := by omega
      simp only [Function.comp_apply, if_neg hneg, Int.toNat_natCast]
    have hgoal2 : (List.replicate (k - embs.length) (-1 : Int)).map
        (fun i : Int => if i < 0 then li.getD (li.length - 1) 0 else li.getD i.toNat 0)
        = List.replicate (k - embs.length) (li.getD (li.length - 1) 0) := by
      rw [List.map_replicate, if_pos (by omega : (-1 : Int) < 0)]
    rw [hfst, mapM_ok _ _ _ hfor, List.map_append, hgoal1, hgoal2]
  simp only [search_pmids_from_npy, hcast]
  rw [← hembsN, ← hqn, hmapM, hsnd]

/-! ## Store-side claims -/

/-- C7 counterexample: a write whose id array has length 2 and whose
vector array has length 1 does not fail — it unconditionally replaces the
prior persisted pair. -/
theorem c7_length_mismatch_counterexample :
    writeStore (SavedStore.mk (Option.some [[(5 : ℝ)]]) (Option.some (StoredIds.ints [9])))
        [[(1 : ℝ)]] (StoredIds.ints [1, 2])
      = SavedStore.mk (Option.some [[(1 : ℝ)]]) (Option.some (StoredIds.ints [1, 2])) ∧
    writeStore (SavedStore.mk (Option.some [[(5 : ℝ)]]) (Option.some (StoredIds.ints [9])))
        [[(1 : ℝ)]] (StoredIds.ints [1, 2])
      ≠ SavedStore.mk (Option.some [[(5 : ℝ)]]) (Option.some (StoredIds.ints [9])) := by
  refine ⟨rfl, ?_⟩
  intro h
  have h2 := congrArg SavedStore.pmid_index h
  simp [writeStore] at h2

/-- C7 (amended): the save step performs no length validation at all —
even when `len(ids) ≠ len(vectors)` it succeeds and unconditionally
replaces both persisted files with the new (mismatched) pair, so the
prior store content is destroyed rather than preserved. -/
theorem c7_write_no_validation (prior : SavedStore) (embs : List Vec) (ids : StoredIds)
    (_hmis : ids.length ≠ embs.length) :
    writeStore prior embs ids = SavedStore.mk (Option.some embs) (Option.some ids) :=
  rfl

/-- Witness for the amended C7 at a concrete mismatched write. -/
theorem c7_write_no_validation_witness :
    (StoredIds.ints [1, 2]).length ≠ [[(1 : ℝ)]].length ∧
    writeStore (SavedStore.mk Option.none Option.none) [[(1 : ℝ)]] (StoredIds.ints [1, 2])
      = SavedStore.mk (Option.some [[(1 : ℝ)]]) (Option.some (StoredIds.ints [1, 2])) :=
  ⟨by decide, c7_write_no_validation (SavedStore.mk Option.none Option.none)
    [[(1 : ℝ)]] (StoredIds.ints [1, 2]) (by decide)⟩

/-- C8: a save-then-load round trip reproduces the id array exactly and
the vector matrix exactly (hence within `1e-6` absolute tolerance entry
by entry). -/
theorem c8_save_load_round_trip (prior : SavedStore) (embs : List Vec) (ids : StoredIds) :
    ∃ le li, loadStore (writeStore prior embs ids) = Except.ok (le, li) ∧
      li = ids ∧ le = embs ∧
      ∀ i j : ℕ, |(le.getD i []).getD j 0 - (embs.getD i []).getD j 0| < 1 / 1000000 := by
  refine ⟨embs, ids, rfl, rfl, rfl, ?_⟩
  intro i j
  rw [sub_self, abs_zero]
  norm_num

/-- C9 counterexample: requesting zero texts makes the batch size
`min(10, 0) = 0` (not clamped to at least 1), and the chunked iteration
`range(0, 0, 0)` raises `ValueError`, so the generation run fails. -/
theorem c9_zero_batch_counterexample :
    generationRun (fun _ => ([1] : Vec))
        [ArticleRecord.mk ("9") Option.none Option.none ("A") Option.none] 0
      = Except.error rangeErrMsg ∧ min 10 0 = 0 :=
  ⟨rfl, rfl⟩

/-- C9 (amended): for `1 ≤ to_embed ≤ #records` the effective batch size
`min(10, to_embed)` is clamped to `[1, to_embed]`, the chunked iteration
succeeds, and every chunk passed to the model is non-empty and no larger
than the batch size; but for `to_embed = 0` the batch size is 0 and the
iteration raises `ValueError` instead of doing nothing. -/
theorem c9_batch_size_clamped (enc : String → Vec) (records : List ArticleRecord)
    (to_embed : ℕ) (h1 : 1 ≤ to_embed) (h2 : to_embed ≤ records.length) :
    1 ≤ min 10 to_embed ∧ min 10 to_embed ≤ to_embed ∧
    (∃ res, generationRun enc records to_embed = Except.ok res) ∧
    ∀ c ∈ genChunks (records.map formatted) to_embed (min 10 to_embed),
      1 ≤ c.length ∧ c.length ≤ min 10 to_embed := by
  refine ⟨by omega, by omega, ⟨_, generationRun_ok enc records to_embed h1⟩, ?_⟩
  intro c hc
  rcases List.mem_map.mp hc with ⟨s, hs, rfl⟩
  rcases rangeStep_mem hs with ⟨_, hsn⟩
  rw [List.length_take, List.length_drop, List.length_map]
  omega

/-- Witness for the amended C9 at a concrete input. -/
theorem c9_batch_size_clamped_witness :
    (1 ≤ 1 ∧ 1 ≤ [ArticleRecord.mk ("9") Option.none Option.none ("A") Option.none].length) ∧
    (1 ≤ min 10 1 ∧ min 10 1 ≤ 1 ∧
      (∃ res, generationRun (fun _ => ([1] : Vec))
        [ArticleRecord.mk ("9") Option.none Option.none ("A") Option.none] 1 = Except.ok res) ∧
      ∀ c ∈ genChunks ([ArticleRecord.mk ("9") Option.none Option.none ("A") Option.none].map
          formatted) 1 (min 10 1),
        1 ≤ c.length ∧ c.length ≤ min 10 1) :=
  ⟨⟨by decide, by decide⟩,
    c9_batch_size_clamped (fun _ => ([1] : Vec))
      [ArticleRecord.mk ("9") Option.none Option.none ("A") Option.none] 1
      (by decide) (by decide)⟩

/-- C10: the identifier array is cast to integer dtype before lookup —
searching a store whose ids were persisted as strings gives exactly the
same result as searching one whose ids are the parsed integers, for every
query and every `top_k`; and on an integer-dtype array the cast is the
identity. -/
theorem c10_ids_cast_to_int (enc : String → Vec) (embs : List Vec) (sids : StoredIds)
    (li : List Int) (raw : String) (k : ℕ) (hcast : castIds sids = Except.ok li) :
    search_pmids_from_npy enc (SavedStore.mk (Option.some embs) (Option.some sids)) raw k
      = search_pmids_from_npy enc
          (SavedStore.mk (Option.some embs) (Option.some (StoredIds.ints li))) raw k ∧
    castIds (StoredIds.ints li) = Except.ok li := by
  refine ⟨?_, rfl⟩
  simp only [search_pmids_from_npy]
  rw [hcast]
  rfl

/-- Witness for C10: ids stored as the strings "12", "7" behave exactly
like the integer ids 12, 7. -/
theorem c10_ids_cast_to_int_witness :
    castIds (StoredIds.strs ["12", "7"]) = Except.ok [12, 7] ∧
    (search_pmids_from_npy (fun _ => ([1] : Vec))
        (SavedStore.mk (Option.some [[(1 : ℝ)]]) (Option.some (StoredIds.strs ["12", "7"])))
        ("q") 1
      = search_pmids_from_npy (fun _ => ([1] : Vec))
          (SavedStore.mk (Option.some [[(1 : ℝ)]]) (Option.some (StoredIds.ints [12, 7])))
          ("q") 1 ∧
      castIds (StoredIds.ints [12, 7]) = Except.ok [12, 7]) :=
  ⟨rfl,
    c10_ids_cast_to_int (fun _ => ([1] : Vec)) [[(1 : ℝ)]] (StoredIds.strs ["12", "7"])
      [12, 7] ("q") 1 rfl⟩

/-! ## Concrete evaluation of the single-vector store -/

theorem l2norm_one_single : l2norm [(1 : ℝ)] = 1 := by
  unfold l2norm
  simp only [List.map_cons, List.map_nil, List.sum_cons, List.sum_nil, one_pow, add_zero]
  exact Real.sqrt_one

theorem normalizeRow_one_single : normalizeRow [(1 : ℝ)] = [1] := by
  unfold normalizeRow
  rw [l2norm_one_single]
  norm_num

theorem normalizeQuery_one_single : normalizeQuery [(1 : ℝ)] = [1] := by
  unfold normalizeQuery
  rw [l2norm_one_single]
  norm_num

theorem rankedList_one_single : rankedList [[(1 : ℝ)]] [(1 : ℝ)] = [(0, 1)] := by
  unfold rankedList ipScores
  have hdot : dot [(1 : ℝ)] [(1 : ℝ)] = 1 := by
    unfold dot
    norm_num
  rw [List.map_cons, List.map_nil, hdot]
  rfl

theorem mapNormalize_one_single : [[(1 : ℝ)]].map normalizeRow = [[(1 : ℝ)]] := by
  rw [List.map_cons, List.map_nil, normalizeRow_one_single]

/-! ## Query-validation claim (C2) -/

/-- C2 counterexample: searching with a whitespace-only query against a
one-vector store raises no validation error at all — the query is
stripped, handed to the embedding model, and a normal result list is
returned. -/
theorem c2_empty_query_counterexample :
    search_pmids_from_npy (fun _ => ([1] : Vec))
        (SavedStore.mk (Option.some [[(1 : ℝ)]]) (Option.some (StoredIds.ints [7])))
        ("   ") 1
      = Except.ok ([7], [1]) := by
  rw [search_ok (fun _ => ([1] : Vec)) [[(1 : ℝ)]] (StoredIds.ints [7]) [7] ("   ") 1
    rfl rfl (by norm_num)]
  rw [mapNormalize_one_single]
  rw [normalizeQuery_one_single, rankedList_one_single]
  rfl

/-- C2 (amended): `search_pmids_from_npy` applies no validation to the
query: an empty or whitespace-only query string is stripped, passed to
the embedding model like any other query, and (for a well-formed
non-empty store) a normal result list is produced — identical to the
result for the literally empty query. -/
theorem c2_amended_no_query_validation (enc : String → Vec) (embs : List Vec)
    (sids : StoredIds) (li : List Int) (raw : String) (k : ℕ)
    (hcast : castIds sids = Except.ok li) (hlen : li.length = embs.length)
    (hN : 0 < embs.length) (hws : pyStrip raw = "") :
    (∃ out, search_pmids_from_npy enc
        (SavedStore.mk (Option.some embs) (Option.some sids)) raw k = Except.ok out) ∧
    search_pmids_from_npy enc (SavedStore.mk (Option.some embs) (Option.some sids)) raw k
      = search_pmids_from_npy enc (SavedStore.mk (Option.some embs) (Option.some sids))
          ("") k := by
  constructor
  · exact ⟨_, search_ok enc embs sids li raw k hcast hlen hN⟩
  · rw [search_ok enc embs sids li raw k hcast hlen hN,
      search_ok enc embs sids li ("") k hcast hlen hN, hws,
      show pyStrip ("") = ("") from rfl]

/-- Witness for the amended C2 at a concrete whitespace query. -/
theorem c2_amended_no_query_validation_witness :
    pyStrip ("   ") = "" ∧
    ((∃ out, search_pmids_from_npy (fun _ => ([1] : Vec))
        (SavedStore.mk (Option.some [[(1 : ℝ)]]) (Option.some (StoredIds.ints [7])))
        ("   ") 1 = Except.ok out) ∧
      search_pmids_from_npy (fun _ => ([1] : Vec))
          (SavedStore.mk (Option.some [[(1 : ℝ)]]) (Option.some (StoredIds.ints [7])))
          ("   ") 1
        = search_pmids_from_npy (fun _ => ([1] : Vec))
            (SavedStore.mk (Option.some [[(1 : ℝ)]]) (Option.some (StoredIds.ints [7])))
            ("") 1) :=
  ⟨rfl, c2_amended_no_query_validation (fun _ => ([1] : Vec)) [[(1 : ℝ)]]
    (StoredIds.ints [7]) [7] ("   ") 1 rfl rfl (by norm_num) rfl⟩

/-! ## Top-k overflow claim (C1) -/

/-- C1 counterexample: searching a one-vector store with `top_k = 2`
raises no error but does NOT return exactly the single stored result:
FAISS pads the second slot with label `-1` and score `-FLT_MAX`, and
numpy fancy indexing resolves index `-1` to the LAST stored pmid, so the
result list is `[7, 7]` — the stored identifier appears twice. -/
theorem c1_topk_overflow_counterexample :
    search_pmids_from_npy (fun _ => ([1] : Vec))
        (SavedStore.mk (Option.some [[(1 : ℝ)]]) (Option.some (StoredIds.ints [7])))
        ("q") 2
      = Except.ok ([7, 7], [1, faissPadScore]) ∧
    ¬ ([7, 7] : List Int).Nodup := by
  constructor
  · rw [search_ok (fun _ => ([1] : Vec)) [[(1 : ℝ)]] (StoredIds.ints [7]) [7] ("q") 2
      rfl rfl (by norm_num)]
    rw [mapNormalize_one_single]
    rw [normalizeQuery_one_single, rankedList_one_single]
    rfl
  · decide

/-- C1 (amended): when `top_k` exceeds the number `N ≥ 1` of stored
vectors, the search raises no error but returns a list of length `top_k`,
not `N`: the `N` stored identifiers (each exactly once, in rank order)
followed by `top_k - N` copies of the LAST stored identifier (FAISS pads
the missing slots with label `-1` and score `-FLT_MAX`, and numpy
resolves index `-1` to the last element). -/
theorem c1_amended_topk_overflow (enc : String → Vec) (embs : List Vec) (sids : StoredIds)
    (li : List Int) (raw : String) (k : ℕ) (hcast : castIds sids = Except.ok li)
    (hlen : li.length = embs.length) (hN : 0 < embs.length) (hk : embs.length < k) :
    ∃ rankedIds scs,
      search_pmids_from_npy enc (SavedStore.mk (Option.some embs) (Option.some sids)) raw k
        = Except.ok (rankedIds ++ List.replicate (k - embs.length) (li.getD (li.length - 1) 0),
            scs ++ List.replicate (k - embs.length) faissPadScore) ∧
      rankedIds.Perm li ∧
      rankedIds.length = embs.length ∧
      (rankedIds ++ List.replicate (k - embs.length) (li.getD (li.length - 1) 0)).length
        = k := by
  set embsN := embs.map normalizeRow with hembsN
  set qn := normalizeQuery (enc (pyStrip raw)) with hqn
  have hlenR : (rankedList embsN qn).length = embs.length := by
    rw [rankedList_length]
    simp [hembsN]
  have htake : (rankedList embsN qn).take k = rankedList embsN qn :=
    List.take_of_length_le (by omega)
  refine ⟨(rankedList embsN qn).map (fun p => li.getD p.1 0),
    (rankedList embsN qn).map (fun p => p.2), ?_, ?_, ?_, ?_⟩
  · rw [search_ok enc embs sids li raw k hcast hlen hN, htake]
  · have hperm := (rankedList_perm embsN qn).map (fun p : ℕ × ℝ => li.getD p.1 0)
    have henum : ((ipScores embsN qn).enum).map (fun p : ℕ × ℝ => li.getD p.1 0) = li := by
      have h1 : ((ipScores embsN qn).enum).map (fun p : ℕ × ℝ => li.getD p.1 0)
          = (((ipScores embsN qn).enum).map Prod.fst).map (fun i => li.getD i 0) := by
        rw [List.map_map]
        rfl
      have h2 : (ipScores embsN qn).length = li.length := by
        simp [ipScores, hembsN, hlen]
      rw [h1, List.enum_map_fst, h2]
      exact range_map_getD li 0
    refine hperm.trans ?_
    rw [henum]
  · rw [List.length_map, hlenR]
  · rw [List.length_append, List.length_map, List.length_replicate, hlenR]
    omega

/-- Witness for the amended C1: one-vector store, `top_k = 2`. -/
theorem c1_amended_topk_overflow_witness :
    (castIds (StoredIds.ints [7]) = Except.ok [7] ∧
      ([7] : List Int).length = [[(1 : ℝ)]].length ∧
      0 < [[(1 : ℝ)]].length ∧ [[(1 : ℝ)]].length < 2) ∧
    ∃ rankedIds scs,
      search_pmids_from_npy (fun _ => ([1] : Vec))
          (SavedStore.mk (Option.some [[(1 : ℝ)]]) (Option.some (StoredIds.ints [7])))
          ("q") 2
        = Except.ok
            (rankedIds ++ List.replicate (2 - [[(1 : ℝ)]].length) (([7] : List Int).getD
              (([7] : List Int).length - 1) 0),
            scs ++ List.replicate (2 - [[(1 : ℝ)]].length) faissPadScore) ∧
      rankedIds.Perm [7] ∧
      rankedIds.length = [[(1 : ℝ)]].length ∧
      (rankedIds ++ List.replicate (2 - [[(1 : ℝ)]].length) (([7] : List Int).getD
        (([7] : List Int).length - 1) 0)).length = 2 :=
  ⟨⟨rfl, rfl, by norm_num, by norm_num⟩,
    c1_amended_topk_overflow (fun _ => ([1] : Vec)) [[(1 : ℝ)]] (StoredIds.ints [7]) [7]
      ("q") 2 rfl rfl (by norm_num) (by norm_num)⟩

/-! ## Ranking claim (C6) -/

/-- C6: for every well-formed non-empty store and every query, with
`top_k` within the store size, the result sequence underlying the search
is sorted by descending inner-product score with ties broken by first
appearance in the store (`rankLE`), the returned score list is descending,
and for `top_k = 1` the returned identifier is one whose stored
(normalized) vector attains the globally maximum inner product with the
normalized query vector among all stored vectors. -/
theorem c6_ranking (enc : String → Vec) (embs : List Vec) (sids : StoredIds)
    (li : List Int) (raw : String) (k : ℕ) (hcast : castIds sids = Except.ok li)
    (hlen : li.length = embs.length) (hN : 0 < embs.length) (hk : k ≤ embs.length) :
    ∃ ranked : List (ℕ × ℝ),
      ranked = (rankedList (embs.map normalizeRow) (normalizeQuery (enc (pyStrip raw)))).take k ∧
      search_pmids_from_npy enc (SavedStore.mk (Option.some embs) (Option.some sids)) raw k
        = Except.ok (ranked.map (fun p => li.getD p.1 0), ranked.map (fun p => p.2)) ∧
      List.Pairwise rankLE ranked ∧
      List.Pairwise (fun a b : ℕ × ℝ => b.2 ≤ a.2) ranked ∧
      (k = 1 → ∃ i s, ranked = [(i, s)] ∧ i < embs.length ∧
        s = dot (normalizeQuery (enc (pyStrip raw))) ((embs.map normalizeRow).getD i []) ∧
        ∀ j < embs.length,
          dot (normalizeQuery (enc (pyStrip raw))) ((embs.map normalizeRow).getD j [])
            ≤ s) := by
  set embsN := embs.map normalizeRow with hembsN
  set qn := normalizeQuery (enc (pyStrip raw)) with hqn
  have hNlen : embsN.length = embs.length := by simp [hembsN]
  have hpad : k - embs.length = 0 := by omega
  have hsortTake : List.Pairwise rankLE ((rankedList embsN qn).take k) :=
    List.Pairwise.sublist (List.take_sublist k _) (rankedList_sorted embsN qn)
  refine ⟨(rankedList embsN qn).take k, rfl, ?_, hsortTake, ?_, ?_⟩
  · rw [search_ok enc embs sids li raw k hcast hlen hN, hpad]
    simp only [List.replicate_zero, List.append_nil]
  · exact hsortTake.imp (fun hab => by
      rcases hab with h | ⟨h, _⟩
      · exact le_of_lt h
      · exact le_of_eq h)
  · intro hk1
    subst hk1
    have hne : rankedList embsN qn ≠ [] := by
      intro hnil
      have hl := rankedList_length embsN qn
      rw [hnil] at hl
      simp at hl
      omega
    rcases List.exists_cons_of_ne_nil hne with ⟨hd, tl, hconseq⟩
    have hmemhd : hd ∈ rankedList embsN qn := by
      rw [hconseq]
      exact List.mem_cons_self _ _
    have hhd := rankedList_mem hmemhd
    refine ⟨hd.1, hd.2, ?_, by omega, hhd.2, ?_⟩
    · rw [hconseq]
      rfl
    · intro j hj
      have hjN : j < embsN.length := by omega
      have hjmem := rankedList_mem_of_lt embsN qn j hjN
      rw [hconseq] at hjmem
      rcases List.mem_cons.mp hjmem with heq2 | htl
      · exact le_of_eq (congrArg Prod.snd heq2)
      · have hsorted := rankedList_sorted embsN qn
        rw [hconseq, List.sorted_cons] at hsorted
        rcases hsorted.1 _ htl with h | ⟨h, _⟩
        · exact le_of_lt h
        · exact le_of_eq h

/-- Witness for C6: a two-vector store (a unit vector and the zero
vector), `top_k = 1`. -/
theorem c6_ranking_witness :
    (castIds (StoredIds.ints [7, 8]) = Except.ok [7, 8] ∧
      ([7, 8] : List Int).length = [[(1 : ℝ)], [(0 : ℝ)]].length ∧
      0 < [[(1 : ℝ)], [(0 : ℝ)]].length ∧ 1 ≤ [[(1 : ℝ)], [(0 : ℝ)]].length) ∧
    ∃ ranked : List (ℕ × ℝ),
      ranked = (rankedList ([[(1 : ℝ)], [(0 : ℝ)]].map normalizeRow)
        (normalizeQuery ((fun _ => ([1] : Vec)) (pyStrip ("q"))))).take 1 ∧
      search_pmids_from_npy (fun _ => ([1] : Vec))
          (SavedStore.mk (Option.some [[(1 : ℝ)], [(0 : ℝ)]])
            (Option.some (StoredIds.ints [7, 8]))) ("q") 1
        = Except.ok (ranked.map (fun p => ([7, 8] : List Int).getD p.1 0),
            ranked.map (fun p => p.2)) ∧
      List.Pairwise rankLE ranked ∧
      List.Pairwise (fun a b : ℕ × ℝ => b.2 ≤ a.2) ranked ∧
      (1 = 1 → ∃ i s, ranked = [(i, s)] ∧ i < [[(1 : ℝ)], [(0 : ℝ)]].length ∧
        s = dot (normalizeQuery ((fun _ => ([1] : Vec)) (pyStrip ("q"))))
          (([[(1 : ℝ)], [(0 : ℝ)]].map normalizeRow).getD i []) ∧
        ∀ j < [[(1 : ℝ)], [(0 : ℝ)]].length,
          dot (normalizeQuery ((fun _ => ([1] : Vec)) (pyStrip ("q"))))
            (([[(1 : ℝ)], [(0 : ℝ)]].map normalizeRow).getD j []) ≤ s) :=
  ⟨⟨rfl, rfl, by norm_num, by norm_num⟩,
    c6_ranking (fun _ => ([1] : Vec)) [[(1 : ℝ)], [(0 : ℝ)]] (StoredIds.ints [7, 8])
      [7, 8] ("q") 1 rfl rfl (by norm_num) (by norm_num)⟩
